import Mathlib

/-!
# Verification of the rotation-schedule core (`employee.py`, `schedule_generator.py`)

Shallow embedding of the rotation-state calculator and the schedule
coordinator of the `orenes-calendar` repository, together with proofs of
the specified properties.

Modelling conventions:
* Calendar dates are modelled as `Nat` ordinal day numbers (the value of
  Python's `date.toordinal`); adding one day is `+ 1`, and the difference
  `(start_date - reference_date).days` is `Nat` subtraction under the
  guard `start_date ≥ reference_date`, exactly as in the source.
* Python strings stay strings (`'Trabajando'`, `'Descanso'`, `'Mañana'`,
  `'Tarde'`, `'-'`).
* `ROTATION_PATTERN[i]` and `cycle_shifts[i]` are list indexing; the
  source only ever indexes with `i` in range (indices are produced by
  `(i + 1) % 4`, or supplied by constructors that the data-model
  invariant constrains to `0 ≤ i < 4`), so the embedding uses `List.getD`
  with a default that is never reached on the states the theorems are
  about (Python would raise `IndexError` outside that range).
* The `ValueError` raised by `generate_schedule` is an `Except.error`
  carrying the offending date (the Python message interpolates that
  date); `generate_schedule`'s mutation of the employee dict is explicit
  state passing: the final employee states are returned with the output.
-/

set_option maxRecDepth 100000

deriving instance DecidableEq for Except

namespace OrenesCalendar

/-- Embedding of the `Employee` class state of `employee.py`:
`name`, `current_cycle_index`, `current_day_in_cycle`, `current_shift`,
`is_resting`, and the (otherwise unused) `shift_cycle_count` counter
set to `0` by `__init__`. -/
structure Employee where
  name : String
  currentCycleIndex : Nat
  currentDayInCycle : Nat
  currentShift : String
  isResting : Bool
  shiftCycleCount : Nat := 0
deriving DecidableEq, Repr

namespace Employee

/-- `Employee.ROTATION_PATTERN = [(3, 2), (3, 2), (4, 1), (4, 2)]`
(work_days, rest_days). -/
def ROTATION_PATTERN : List (Nat × Nat) := [(3, 2), (3, 2), (4, 1), (4, 2)]

/-- The per-block shift table `cycle_shifts = ['Tarde', 'Mañana', 'Tarde',
'Mañana']` from `advance_day`. -/
def cycleShifts : List String := ["Tarde", "Mañana", "Tarde", "Mañana"]

/-- `Employee.get_current_cycle`: `ROTATION_PATTERN[current_cycle_index]`.
The default of `getD` is unreachable for `current_cycle_index < 4`. -/
def getCurrentCycle (e : Employee) : Nat × Nat :=
  ROTATION_PATTERN.getD e.currentCycleIndex (0, 0)

/-- `Employee.get_status_for_day`: `('Descanso', '-')` when resting, else
`('Trabajando', current_shift)`. -/
def getStatusForDay (e : Employee) : String × String :=
  if e.isResting then ("Descanso", "-") else ("Trabajando", e.currentShift)

/-- `Employee.advance_day`: increment `current_day_in_cycle`; on passing the
end of the current (work+rest) block, move to the next block modulo the
pattern length, reset the day to `1` and take the new block's shift from
`cycle_shifts`; finally recompute `is_resting` from the (possibly new)
block's work days. -/
def advanceDay (e : Employee) : Employee :=
  let wr := e.getCurrentCycle
  let totalCycleDays := wr.1 + wr.2
  let d1 := e.currentDayInCycle + 1
  let st :=
    if d1 > totalCycleDays then
      let ci := (e.currentCycleIndex + 1) % ROTATION_PATTERN.length
      (ci, 1, cycleShifts.getD ci "")
    else
      (e.currentCycleIndex, d1, e.currentShift)
  let wr2 := ROTATION_PATTERN.getD st.1 (0, 0)
  { e with
    currentCycleIndex := st.1
    currentDayInCycle := st.2.1
    currentShift := st.2.2
    isResting := decide (st.2.1 > wr2.1) }

/-- The record built by `Employee.get_schedule_info` (status, shift,
`"{work}-{rest}"` cycle label, day in cycle, cycle index). -/
structure ScheduleInfo where
  status : String
  shift : String
  cycle : String
  dayInCycle : Nat
  cycleIndex : Nat
deriving DecidableEq, Repr

/-- `Employee.get_schedule_info`. -/
def getScheduleInfo (e : Employee) : ScheduleInfo :=
  let ss := e.getStatusForDay
  let wr := e.getCurrentCycle
  { status := ss.1
    shift := ss.2
    cycle := toString wr.1 ++ "-" ++ toString wr.2
    dayInCycle := e.currentDayInCycle
    cycleIndex := e.currentCycleIndex }

/-- `Employee.create_ludy()`: `Employee("Ludy", 3, 4, "Mañana",
is_resting=False)`. -/
def createLudy : Employee :=
  { name := "Ludy", currentCycleIndex := 3, currentDayInCycle := 4
    currentShift := "Mañana", isResting := false }

/-- `Employee.create_sanye()`: `Employee("Sanye", 2, 2, "Tarde",
is_resting=False)`. -/
def createSanye : Employee :=
  { name := "Sanye", currentCycleIndex := 2, currentDayInCycle := 2
    currentShift := "Tarde", isResting := false }

/-- `Employee.create_clari()`: `Employee("Clari", 0, 5, "Tarde",
is_resting=True)`. -/
def createClari : Employee :=
  { name := "Clari", currentCycleIndex := 0, currentDayInCycle := 5
    currentShift := "Tarde", isResting := true }

end Employee

/-- The `(cycle_index, day_in_cycle)` component of `advance_day`, as a pure
step function on positions: the same arithmetic as `Employee.advanceDay`,
ignoring the shift/resting fields (which it does not depend on). -/
def stepPos (p : Nat × Nat) : Nat × Nat :=
  let wr := Employee.ROTATION_PATTERN.getD p.1 (0, 0)
  if p.2 + 1 > wr.1 + wr.2 then
    ((p.1 + 1) % Employee.ROTATION_PATTERN.length, 1)
  else
    (p.1, p.2 + 1)

/-- Total length (work + rest) of the rotation block at index `ci`. -/
def cycleTotal (ci : Nat) : Nat :=
  let wr := Employee.ROTATION_PATTERN.getD ci (0, 0)
  wr.1 + wr.2

/-- The data-model invariant on a rotation position: the cycle index is in
range and `1 ≤ day_in_cycle ≤ work_days + rest_days` of the current block. -/
def ValidPos (p : Nat × Nat) : Prop :=
  p.1 < 4 ∧ 1 ≤ p.2 ∧ p.2 ≤ cycleTotal p.1

instance (p : Nat × Nat) : Decidable (ValidPos p) := by
  unfold ValidPos; infer_instance

/-- An employee state whose derived fields agree with their defining rules:
the shift is the `cycle_shifts` entry of the current block, and `resting`
is the derived value `day_in_cycle > work_days` of the current block. -/
def TableConsistent (e : Employee) : Prop :=
  e.currentShift = Employee.cycleShifts.getD e.currentCycleIndex "" ∧
  e.isResting = decide (e.currentDayInCycle >
    (Employee.ROTATION_PATTERN.getD e.currentCycleIndex (0, 0)).1)

instance (e : Employee) : Decidable (TableConsistent e) := by
  unfold TableConsistent; infer_instance

/-- The unique table-consistent employee state at a given rotation position,
for a given name and shift counter. -/
def canonicalEmployee (nm : String) (cnt : Nat) (p : Nat × Nat) : Employee :=
  { name := nm
    currentCycleIndex := p.1
    currentDayInCycle := p.2
    currentShift := Employee.cycleShifts.getD p.1 ""
    isResting := decide (p.2 > (Employee.ROTATION_PATTERN.getD p.1 (0, 0)).1)
    shiftCycleCount := cnt }

namespace ScheduleGenerator

/-- `self.reference_date = date(2025, 8, 1)` of `ScheduleGenerator.__init__`,
as the Python ordinal day number of 2025-08-01. -/
def referenceDate : Nat := 739464

/-- The employee table of the reference deployment, keyed by name in the
insertion order of `self.employees`.  `ScheduleGenerator.__init__` as
written names `Employee.create_isaac()` and `Employee.create_genesis()`,
which `employee.py` does not define (its classmethod constructors are
`create_ludy`, `create_sanye`, `create_clari`, and the CLI in `main.py`
announces worksheets for exactly those three people); this table is the
three constructors that exist, which the rest of the development is
parametric over anyway. -/
def referenceEmployees : List (String × Employee) :=
  [("Ludy", Employee.createLudy),
   ("Sanye", Employee.createSanye),
   ("Clari", Employee.createClari)]

/-- `ScheduleGenerator._advance_to_start_date`: when
`start_date ≥ reference_date`, advance every employee's state by
`(start_date - reference_date).days` single-day steps; otherwise do
nothing (the guard has no else branch and nothing is raised). -/
def advanceToStartDate (startDate refDate : Nat)
    (emps : List (String × Employee)) : List (String × Employee) :=
  if startDate ≥ refDate then
    emps.map (fun p => (p.1, (Employee.advanceDay)^[startDate - refDate] p.2))
  else
    emps

/-- `ScheduleGenerator.__init__` for a given employee table: record the
start date and advance the employee states to it from the reference date. -/
def mkScheduleGenerator (startDate : Nat)
    (emps : List (String × Employee)) : List (String × Employee) :=
  advanceToStartDate startDate referenceDate emps

/-- The `day_schedule` dict of one loop iteration of `generate_schedule`:
each employee's `get_schedule_info()` keyed by name. -/
def dayScheduleOf (emps : List (String × Employee)) :
    List (String × Employee.ScheduleInfo) :=
  emps.map (fun p => (p.1, p.2.getScheduleInfo))

/-- The count in `validate_daily_schedule`: number of employees whose
status is `'Trabajando'`. -/
def workingCount (ds : List (String × Employee.ScheduleInfo)) : Nat :=
  (ds.filter (fun p => p.2.status == "Trabajando")).length

/-- Number of employees whose status is `'Descanso'`. -/
def restingCount (ds : List (String × Employee.ScheduleInfo)) : Nat :=
  (ds.filter (fun p => p.2.status == "Descanso")).length

/-- `ScheduleGenerator.validate_daily_schedule`: `working_count == 2`. -/
def validateDailySchedule (ds : List (String × Employee.ScheduleInfo)) : Bool :=
  workingCount ds == 2

/-- One `general_schedule` entry: the date (`'Fecha'`) together with the
day's per-employee schedule-info dict.  (The localized weekday string
`'Día'` is rendering data derived from the date and is not modelled.) -/
structure GeneralRecord where
  fecha : Nat
  entries : List (String × Employee.ScheduleInfo)
deriving DecidableEq, Repr

/-- One `individual_schedules[name]` entry: the date plus the flattened
`schedule_info` fields (again without the derived weekday string). -/
structure IndividualRecord where
  date : Nat
  info : Employee.ScheduleInfo
deriving DecidableEq, Repr

/-- `for employee in self.employees.values(): employee.advance_day()` —
advance every employee one day, keys unchanged. -/
def advanceAll (emps : List (String × Employee)) : List (String × Employee) :=
  emps.map (fun p => (p.1, p.2.advanceDay))

/-- Prepend today's individual record (date plus schedule info) to each
employee's individual list, positionally (the employee dict's iteration
order is fixed, so the day schedule and the individual table line up). -/
def consDay (d : Nat) (ds : List (String × Employee.ScheduleInfo))
    (ind : List (String × List IndividualRecord)) :
    List (String × List IndividualRecord) :=
  List.zipWith (fun p q => (q.1, ⟨d, p.2⟩ :: q.2)) ds ind

/-- The loop of `ScheduleGenerator.generate_schedule`, with the employee
dict passed explicitly and returned (it is mutated in place in Python).
Each iteration reads every employee's `get_schedule_info()`, validates the
staffing invariant (raising — `Except.error` with the offending date — if
it fails, in which case nothing is returned), records the day in the
general and individual tables, advances every employee, and moves
`current_date` one day forward. -/
def generateScheduleAux (emps : List (String × Employee)) (currentDate : Nat) :
    Nat → Except Nat (List GeneralRecord ×
      List (String × List IndividualRecord) × List (String × Employee))
  | 0 => .ok ([], emps.map (fun p => (p.1, [])), emps)
  | n + 1 =>
    let ds := dayScheduleOf emps
    if validateDailySchedule ds then
      match generateScheduleAux (advanceAll emps) (currentDate + 1) n with
      | .ok (gs, ind, fin) => .ok (⟨currentDate, ds⟩ :: gs, consDay currentDate ds ind, fin)
      | .error x => .error x
    else
      .error currentDate

/-- `ScheduleGenerator.generate_schedule(num_days)`.  `num_days` is a
Python `int`; `range(num_days)` performs `max num_days 0` iterations, so
the loop runs `numDays.toNat` times.  There is no validation of
`num_days`. -/
def generateSchedule (emps : List (String × Employee)) (startDate : Nat)
    (numDays : Int) : Except Nat (List GeneralRecord ×
      List (String × List IndividualRecord) × List (String × Employee)) :=
  generateScheduleAux emps startDate numDays.toNat

/-- The general schedule of a generation result (`[]` when it raised). -/
def generalOf (r : Except Nat (List GeneralRecord ×
    List (String × List IndividualRecord) × List (String × Employee))) :
    List GeneralRecord :=
  match r with
  | .ok (gs, _, _) => gs
  | .error _ => []

/-- The individual schedules of a generation result. -/
def individualOf (r : Except Nat (List GeneralRecord ×
    List (String × List IndividualRecord) × List (String × Employee))) :
    List (String × List IndividualRecord) :=
  match r with
  | .ok (_, ind, _) => ind
  | .error _ => []

/-- The final employee states of a generation result. -/
def finalOf (r : Except Nat (List GeneralRecord ×
    List (String × List IndividualRecord) × List (String × Employee)))
    (emps : List (String × Employee)) : List (String × Employee) :=
  match r with
  | .ok (_, _, fin) => fin
  | .error _ => emps

end ScheduleGenerator

/-! ## Lemmas about the rotation-state machine -/

/-- Each rotation block has total length at most 6. -/
theorem cycleTotal_le_six (a : Nat) (h : a < 4) : cycleTotal a ≤ 6 := by
  interval_cases a <;> decide

/-- The `(cycle_index, day_in_cycle)` component of `advance_day` is exactly
`stepPos` — it does not depend on the shift or resting fields. -/
theorem advanceDay_pos (e : Employee) :
    ((e.advanceDay).currentCycleIndex, (e.advanceDay).currentDayInCycle) =
      stepPos (e.currentCycleIndex, e.currentDayInCycle) := by
  unfold Employee.advanceDay stepPos Employee.getCurrentCycle
  dsimp only
  split <;> rfl

/-- Iterated form of `advanceDay_pos`. -/
theorem advanceDay_iterate_pos (k : Nat) (e : Employee) :
    (((Employee.advanceDay)^[k] e).currentCycleIndex,
      ((Employee.advanceDay)^[k] e).currentDayInCycle) =
      stepPos^[k] (e.currentCycleIndex, e.currentDayInCycle) := by
  induction k generalizing e with
  | zero => rfl
  | succ k ih =>
    rw [Function.iterate_succ_apply, Function.iterate_succ_apply,
      ih (Employee.advanceDay e), advanceDay_pos]

/-- `stepPos` preserves the data-model invariant, over the finite space of
valid positions. -/
theorem stepPos_valid_bounded :
    ∀ a, a < 4 → ∀ b, b < 7 →
      (1 ≤ b → b ≤ cycleTotal a → ValidPos (stepPos (a, b))) := by decide

/-- `stepPos` preserves the data-model invariant. -/
theorem stepPos_valid {p : Nat × Nat} (h : ValidPos p) : ValidPos (stepPos p) := by
  obtain ⟨a, b⟩ := p
  obtain ⟨h1, h2, h3⟩ := h
  have hb : b < 7 := Nat.lt_succ_of_le (le_trans h3 (cycleTotal_le_six a h1))
  exact stepPos_valid_bounded a h1 b hb h2 h3

set_option maxRecDepth 4000 in
/-- 21 applications of `stepPos` fix every valid position, over the finite
space of valid positions. -/
theorem stepPos_iterate_21_bounded :
    ∀ a, a < 4 → ∀ b, b < 7 →
      (1 ≤ b → b ≤ cycleTotal a → stepPos^[21] (a, b) = (a, b)) := by decide

/-- 21 applications of `stepPos` fix every valid position. -/
theorem stepPos_iterate_21 {p : Nat × Nat} (h : ValidPos p) : stepPos^[21] p = p := by
  obtain ⟨a, b⟩ := p
  obtain ⟨h1, h2, h3⟩ := h
  have hb : b < 7 := Nat.lt_succ_of_le (le_trans h3 (cycleTotal_le_six a h1))
  exact stepPos_iterate_21_bounded a h1 b hb h2 h3

/-- On valid positions, `advance_day` maps the canonical (table-consistent)
state at `p` to the canonical state at `stepPos p`. -/
theorem advanceDay_canonical (nm : String) (cnt : Nat) (p : Nat × Nat)
    (h : ValidPos p) :
    Employee.advanceDay (canonicalEmployee nm cnt p) =
      canonicalEmployee nm cnt (stepPos p) := by
  obtain ⟨a, b⟩ := p
  obtain ⟨h1, h2, h3⟩ := h
  have hb : b ≤ 6 := le_trans h3 (cycleTotal_le_six a h1)
  interval_cases a <;> interval_cases b <;>
    first
      | exact absurd h3 (by decide)
      | (simp [Employee.advanceDay, canonicalEmployee, stepPos,
          Employee.getCurrentCycle, Employee.ROTATION_PATTERN,
          Employee.cycleShifts] <;> decide)

/-- Iterated form of `advanceDay_canonical`. -/
theorem advanceDay_iterate_canonical (nm : String) (cnt : Nat) (k : Nat)
    (p : Nat × Nat) (h : ValidPos p) :
    (Employee.advanceDay)^[k] (canonicalEmployee nm cnt p) =
      canonicalEmployee nm cnt (stepPos^[k] p) := by
  induction k generalizing p with
  | zero => rfl
  | succ k ih =>
    rw [Function.iterate_succ_apply, advanceDay_canonical nm cnt p h,
      ih (stepPos p) (stepPos_valid h), Function.iterate_succ_apply]

/-- A table-consistent employee state is the canonical state at its
position. -/
theorem consistent_eq_canonical (e : Employee) (h : TableConsistent e) :
    e = canonicalEmployee e.name e.shiftCycleCount
      (e.currentCycleIndex, e.currentDayInCycle) := by
  obtain ⟨h1, h2⟩ := h
  cases e
  simp_all [canonicalEmployee]

/-! ## Claims C4, C5, C8: the rotation-state machine -/

/-- C4 (amended): `advance_day` applied 21 times (21 = 5+5+5+6, the total
length of one traversal of `ROTATION_PATTERN`) returns `cycle_index` and
`day_in_cycle` to their starting values for every state satisfying the
data-model invariant; `shift` and `resting` likewise return to their
starting values provided they carry their table/derived values for the
starting position (`shift = cycle_shifts[cycle_index]` and
`resting = (day_in_cycle > work_days)`). -/
theorem advance_day_period_21 (e : Employee)
    (h : ValidPos (e.currentCycleIndex, e.currentDayInCycle)) :
    (((Employee.advanceDay)^[21] e).currentCycleIndex = e.currentCycleIndex ∧
      ((Employee.advanceDay)^[21] e).currentDayInCycle = e.currentDayInCycle) ∧
    (TableConsistent e → (Employee.advanceDay)^[21] e = e) := by
  constructor
  · have hp := Eq.trans (advanceDay_iterate_pos 21 e) (stepPos_iterate_21 h)
    exact Prod.mk.injEq .. ▸ hp
  · intro hc
    have hce := consistent_eq_canonical e hc
    calc (Employee.advanceDay)^[21] e
        = (Employee.advanceDay)^[21] (canonicalEmployee e.name e.shiftCycleCount
            (e.currentCycleIndex, e.currentDayInCycle)) := by rw [← hce]
      _ = canonicalEmployee e.name e.shiftCycleCount
            (stepPos^[21] (e.currentCycleIndex, e.currentDayInCycle)) :=
          advanceDay_iterate_canonical _ _ 21 _ h
      _ = canonicalEmployee e.name e.shiftCycleCount
            (e.currentCycleIndex, e.currentDayInCycle) :=
          congrArg (canonicalEmployee e.name e.shiftCycleCount) (stepPos_iterate_21 h)
      _ = e := hce.symm

set_option maxRecDepth 10000 in
/-- C4 (counterexample to the claim as stated): the state
`(cycle_index = 0, day_in_cycle = 1, shift = Mañana, resting = false)`
satisfies the data-model invariant, but 21 applications of `advance_day`
do not return it to its starting value: its shift ends at the block-0
table value `Tarde`, not at the starting value `Mañana`. -/
theorem advance_day_period_21_shift_counterexample :
    ValidPos ((0 : Nat), (1 : Nat)) ∧
    (Employee.advanceDay)^[21]
        ({ name := "X", currentCycleIndex := 0, currentDayInCycle := 1,
           currentShift := "Mañana", isResting := false } : Employee) ≠
      ({ name := "X", currentCycleIndex := 0, currentDayInCycle := 1,
         currentShift := "Mañana", isResting := false } : Employee) ∧
    ((Employee.advanceDay)^[21]
        ({ name := "X", currentCycleIndex := 0, currentDayInCycle := 1,
           currentShift := "Mañana", isResting := false } : Employee)).currentShift =
      "Tarde" := by decide

set_option maxRecDepth 10000 in
/-- C4 witness: the theorem applied to the reference state of Ludy, whose
shift and resting flag are table-consistent, so the full state returns
after 21 days. -/
theorem advance_day_period_21_witness :
    (Employee.advanceDay)^[21] Employee.createLudy = Employee.createLudy :=
  (advance_day_period_21 Employee.createLudy (by decide)).2 (by decide)

/-- C5: `advance_day` preserves the data-model invariant: from any state
with `cycle_index < 4` and `1 ≤ day_in_cycle ≤ work_days + rest_days` of
the current block, the successor state again satisfies
`cycle_index < 4` and `1 ≤ day_in_cycle ≤ work_days + rest_days` of the
(possibly new) current block. -/
theorem advance_day_preserves_invariant (e : Employee)
    (h : ValidPos (e.currentCycleIndex, e.currentDayInCycle)) :
    ValidPos ((e.advanceDay).currentCycleIndex, (e.advanceDay).currentDayInCycle) := by
  rw [advanceDay_pos]
  exact stepPos_valid h

/-- C5 witness: the invariant holds of Clari's reference state (the last
day of her block, exercising the wrap-around) and of its successor. -/
theorem advance_day_preserves_invariant_witness :
    ValidPos ((Employee.createClari.advanceDay).currentCycleIndex,
      (Employee.createClari.advanceDay).currentDayInCycle) :=
  advance_day_preserves_invariant Employee.createClari (by decide)

/-- C8 (counterexample to the claim as stated): advancing the state
`(cycle_index = 3, day_in_cycle = 4, shift = Tarde (Afternoon),
resting = false)` once does not yield
`(cycle_index = 0, day_in_cycle = 1, shift = cycle_shifts[0],
resting = false)`: day 5 does not exceed block 3's total `4 + 2 = 6`, so
no block transition happens. -/
theorem advance_from_block3_day4_counterexample :
    Employee.advanceDay
        ({ name := "E", currentCycleIndex := 3, currentDayInCycle := 4,
           currentShift := "Tarde", isResting := false } : Employee) ≠
      ({ name := "E", currentCycleIndex := 0, currentDayInCycle := 1,
         currentShift := Employee.cycleShifts.getD 0 "",
         isResting := false } : Employee) := by decide

/-- C8 (amended): advancing `(cycle_index = 3, day_in_cycle = 4,
shift = Tarde, resting = false)` once yields `(cycle_index = 3,
day_in_cycle = 5, shift = Tarde, resting = true)`: the day moves to 5 of
the same `(4, 2)` block, entering its rest part. -/
theorem advance_from_block3_day4 :
    Employee.advanceDay
        ({ name := "E", currentCycleIndex := 3, currentDayInCycle := 4,
           currentShift := "Tarde", isResting := false } : Employee) =
      ({ name := "E", currentCycleIndex := 3, currentDayInCycle := 5,
         currentShift := "Tarde", isResting := true } : Employee) := by decide

/-! ## Lemmas about the schedule generator -/

/-- A member of a `zipWith` comes from members of the two lists. -/
theorem mem_of_mem_zipWith {α β γ : Type _} (f : α → β → γ) :
    ∀ (as : List α) (bs : List β) (c : γ), c ∈ List.zipWith f as bs →
      ∃ a ∈ as, ∃ b ∈ bs, c = f a b := by
  intro as
  induction as with
  | nil => intro bs c h; simp at h
  | cons a as ih =>
    intro bs c h
    cases bs with
    | nil => simp at h
    | cons b bs =>
      rw [List.zipWith_cons_cons] at h
      rcases List.mem_cons.mp h with h | h
      · exact ⟨a, List.mem_cons_self a as, b, List.mem_cons_self b bs, h⟩
      · rcases ih bs c h with ⟨a', ha', b', hb', hc⟩
        exact ⟨a', List.mem_cons_of_mem a ha', b', List.mem_cons_of_mem b hb', hc⟩

namespace ScheduleGenerator

/-- Every general record a successful run of the generation loop returns
passed `validate_daily_schedule`, so its `'Trabajando'` count is 2. -/
theorem generateScheduleAux_ok_working :
    ∀ (n : Nat) (emps : List (String × Employee)) (d : Nat) gs ind fin,
      generateScheduleAux emps d n = .ok (gs, ind, fin) →
      ∀ r ∈ gs, workingCount r.entries = 2 := by
  intro n
  induction n with
  | zero =>
    intro emps d gs ind fin h r hr
    simp only [generateScheduleAux, Except.ok.injEq, Prod.mk.injEq] at h
    obtain ⟨h1, - , -⟩ := h
    subst h1
    simp at hr
  | succ n ih =>
    intro emps d gs ind fin h r hr
    simp only [generateScheduleAux] at h
    by_cases hv : validateDailySchedule (dayScheduleOf emps) = true
    · rw [if_pos hv] at h
      cases hrec : generateScheduleAux (advanceAll emps) (d + 1) n with
      | error x => rw [hrec] at h; simp at h
      | ok v =>
        obtain ⟨gs', ind', fin'⟩ := v
        rw [hrec] at h
        simp only [Except.ok.injEq, Prod.mk.injEq] at h
        obtain ⟨h1, -, -⟩ := h
        subst h1
        rcases List.mem_cons.mp hr with rfl | hr'
        · simpa [validateDailySchedule] using hv
        · exact ih (advanceAll emps) (d + 1) gs' ind' fin' hrec r hr'
    · rw [if_neg hv] at h
      simp at h

/-- A successful run of the generation loop leaves every employee advanced
by exactly the number of generated days. -/
theorem generateScheduleAux_ok_final :
    ∀ (n : Nat) (emps : List (String × Employee)) (d : Nat) gs ind fin,
      generateScheduleAux emps d n = .ok (gs, ind, fin) →
      fin = (advanceAll)^[n] emps := by
  intro n
  induction n with
  | zero =>
    intro emps d gs ind fin h
    simp only [generateScheduleAux, Except.ok.injEq, Prod.mk.injEq] at h
    obtain ⟨-, -, h3⟩ := h
    simpa using h3.symm
  | succ n ih =>
    intro emps d gs ind fin h
    simp only [generateScheduleAux] at h
    by_cases hv : validateDailySchedule (dayScheduleOf emps) = true
    · rw [if_pos hv] at h
      cases hrec : generateScheduleAux (advanceAll emps) (d + 1) n with
      | error x => rw [hrec] at h; simp at h
      | ok v =>
        obtain ⟨gs', ind', fin'⟩ := v
        rw [hrec] at h
        simp only [Except.ok.injEq, Prod.mk.injEq] at h
        obtain ⟨-, -, h3⟩ := h
        subst h3
        rw [Function.iterate_succ_apply]
        exact ih (advanceAll emps) (d + 1) gs' ind' fin' hrec
    · rw [if_neg hv] at h
      simp at h

/-- Error characterization of the generation loop: it raises exactly when
some day in range fails validation, and the raised date is the first
offending one. -/
theorem generateScheduleAux_error_iff :
    ∀ (n : Nat) (emps : List (String × Employee)) (d x : Nat),
      generateScheduleAux emps d n = .error x ↔
        ∃ k, k < n ∧
          validateDailySchedule (dayScheduleOf ((advanceAll)^[k] emps)) = false ∧
          (∀ j < k,
            validateDailySchedule (dayScheduleOf ((advanceAll)^[j] emps)) = true) ∧
          x = d + k := by
  intro n
  induction n with
  | zero =>
    intro emps d x
    simp [generateScheduleAux]
  | succ n ih =>
    intro emps d x
    simp only [generateScheduleAux]
    by_cases hv : validateDailySchedule (dayScheduleOf emps) = true
    · rw [if_pos hv]
      constructor
      · intro h
        have hrec : generateScheduleAux (advanceAll emps) (d + 1) n = .error x := by
          cases hr2 : generateScheduleAux (advanceAll emps) (d + 1) n with
          | ok v => obtain ⟨a, b, c⟩ := v; rw [hr2] at h; simp at h
          | error y => rw [hr2] at h; simp_all
        rcases (ih (advanceAll emps) (d + 1) x).mp hrec with ⟨k, hk, hbad, hgood, hx⟩
        refine ⟨k + 1, by omega, ?_, ?_, by omega⟩
        · rw [Function.iterate_succ_apply]
          exact hbad
        · intro j hj
          cases j with
          | zero => simpa using hv
          | succ j =>
            rw [Function.iterate_succ_apply]
            exact hgood j (by omega)
      · rintro ⟨k, hk, hbad, hgood, rfl⟩
        cases k with
        | zero => simp_all
        | succ k =>
          have hrec : generateScheduleAux (advanceAll emps) (d + 1) n =
              .error (d + (k + 1)) := by
            apply (ih (advanceAll emps) (d + 1) (d + (k + 1))).mpr
            refine ⟨k, by omega, ?_, ?_, by omega⟩
            · rw [← Function.iterate_succ_apply]
              exact hbad
            · intro j hj
              have hg := hgood (j + 1) (by omega)
              rw [Function.iterate_succ_apply] at hg
              exact hg
          rw [hrec]
    · rw [if_neg hv]
      have hv' : validateDailySchedule (dayScheduleOf emps) = false := by
        revert hv
        cases validateDailySchedule (dayScheduleOf emps) <;> simp
      constructor
      · intro h
        refine ⟨0, by omega, by simpa using hv', ?_, ?_⟩
        · intro j hj
          exact absurd hj (by omega)
        · simpa using h.symm
      · rintro ⟨k, hk, hbad, hgood, rfl⟩
        cases k with
        | zero => simp
        | succ k =>
          have hg := hgood 0 (by omega)
          simp at hg
          simp_all

/-- Date alignment of the generation loop: a successful run returns one
general record per day, the `i`-th general record carries date `d + i`,
and every individual sequence carries date `d + i` at index `i`. -/
theorem generateScheduleAux_ok_dates :
    ∀ (n : Nat) (emps : List (String × Employee)) (d : Nat) gs ind fin,
      generateScheduleAux emps d n = .ok (gs, ind, fin) →
        gs.length = n ∧
        (∀ i (hi : i < gs.length), (gs.get ⟨i, hi⟩).fecha = d + i) ∧
        (∀ p ∈ ind, ∀ i (hi : i < p.2.length), (p.2.get ⟨i, hi⟩).date = d + i) := by
  intro n
  induction n with
  | zero =>
    intro emps d gs ind fin h
    simp only [generateScheduleAux, Except.ok.injEq, Prod.mk.injEq] at h
    obtain ⟨h1, h2, -⟩ := h
    subst h1
    refine ⟨rfl, ?_, ?_⟩
    · intro i hi
      exact absurd hi (by simp)
    · intro p hp i hi
      rw [← h2] at hp
      rcases List.mem_map.mp hp with ⟨q, -, hq⟩
      rw [← hq] at hi
      simp at hi
  | succ n ih =>
    intro emps d gs ind fin h
    simp only [generateScheduleAux] at h
    by_cases hv : validateDailySchedule (dayScheduleOf emps) = true
    · rw [if_pos hv] at h
      cases hrec : generateScheduleAux (advanceAll emps) (d + 1) n with
      | error x => rw [hrec] at h; simp at h
      | ok v =>
        obtain ⟨gs', ind', fin'⟩ := v
        rw [hrec] at h
        simp only [Except.ok.injEq, Prod.mk.injEq] at h
        obtain ⟨h1, h2, -⟩ := h
        subst h1
        obtain ⟨ihlen, ihgs, ihind⟩ := ih (advanceAll emps) (d + 1) gs' ind' fin' hrec
        refine ⟨by simpa using ihlen, ?_, ?_⟩
        · intro i hi
          cases i with
          | zero => rfl
          | succ i =>
            have hi' : i < gs'.length := by simpa using hi
            have := ihgs i hi'
            simpa [Nat.add_assoc, Nat.add_comm 1 i] using this
        · intro p hp i hi
          rw [← h2] at hp
          rcases mem_of_mem_zipWith _ _ _ _ hp with ⟨a, -, b, hb, hab⟩
          subst hab
          cases i with
          | zero => rfl
          | succ i =>
            have hi' : i < b.2.length := by simpa using hi
            have := ihind b hb i hi'
            simpa [Nat.add_assoc, Nat.add_comm 1 i] using this
    · rw [if_neg hv] at h
      simp at h

/-! ## Claims C1, C2, C3, C6, C7, C9, C10: the schedule generator -/

/-- C1: whenever `generate_schedule` returns without error, every returned
general record has exactly 2 employees with status `'Trabajando'` — for
every configuration and every `num_days` (the loop validates each day's
`day_schedule` with `validate_daily_schedule` before recording it and
raises otherwise). -/
theorem generate_schedule_staffing_invariant
    (emps : List (String × Employee)) (startDate : Nat) (numDays : Int)
    (gs : List GeneralRecord) (ind : List (String × List IndividualRecord))
    (fin : List (String × Employee))
    (h : generateSchedule emps startDate numDays = .ok (gs, ind, fin)) :
    ∀ r ∈ gs, workingCount r.entries = 2 :=
  generateScheduleAux_ok_working numDays.toNat emps startDate gs ind fin h

/-- C1 witness: the first record of a successful 7-day run from the
reference configuration has exactly 2 employees working. -/
theorem generate_schedule_staffing_invariant_witness :
    workingCount ((generalOf (generateSchedule referenceEmployees referenceDate
      7)).headD { fecha := 0, entries := [] }).entries = 2 :=
  generate_schedule_staffing_invariant referenceEmployees referenceDate 7
    (generalOf (generateSchedule referenceEmployees referenceDate 7))
    (individualOf (generateSchedule referenceEmployees referenceDate 7))
    (finalOf (generateSchedule referenceEmployees referenceDate 7)
      referenceEmployees)
    (by decide)
    ((generalOf (generateSchedule referenceEmployees referenceDate 7)).headD
      { fecha := 0, entries := [] })
    (by decide)

/-- C2: on the documented 3-employee reference configuration (the three
classmethod constructors `employee.py` actually defines: Ludy, Sanye,
Clari), constructing the coordinator at `start_date = reference_date`
performs zero advancement steps and `generate_schedule(7)` succeeds with
exactly 7 records, each with exactly 2 working and 1 resting.  (The
`__init__` in `schedule_generator.py` as written instead references
`Employee.create_isaac` / `Employee.create_genesis`, which do not exist —
an `AttributeError` on any construction — so this theorem is about the
configuration the repository documents and `main.py` announces.) -/
theorem reference_deployment_generates_valid_week :
    mkScheduleGenerator referenceDate referenceEmployees = referenceEmployees ∧
    (generateSchedule referenceEmployees referenceDate 7).isOk = true ∧
    (generalOf (generateSchedule referenceEmployees referenceDate 7)).length = 7 ∧
    (generalOf (generateSchedule referenceEmployees referenceDate 7)).all
      (fun r => workingCount r.entries == 2 && restingCount r.entries == 1) =
      true := by decide

/-- C3: `generate_schedule` raises (returning no roster at all — the error
outcome carries only the offending date) if and only if some generated day
in range fails the staffing invariant, and the raised error names the
first offending date; conversely, when no day in range violates the
invariant, no error is raised. -/
theorem generate_schedule_error_iff
    (emps : List (String × Employee)) (startDate : Nat) (numDays : Int)
    (x : Nat) :
    generateSchedule emps startDate numDays = .error x ↔
      ∃ k, k < numDays.toNat ∧
        validateDailySchedule (dayScheduleOf ((advanceAll)^[k] emps)) = false ∧
        (∀ j < k,
          validateDailySchedule (dayScheduleOf ((advanceAll)^[j] emps)) = true) ∧
        x = startDate + k :=
  generateScheduleAux_error_iff numDays.toNat emps startDate x

/-- C3 witness: a one-employee configuration can never have 2 working, so
generation errors immediately, at the start date itself. -/
theorem generate_schedule_error_iff_witness :
    generateSchedule [("Solo", Employee.createLudy)] referenceDate 3 =
      .error referenceDate :=
  (generate_schedule_error_iff [("Solo", Employee.createLudy)] referenceDate 3
    referenceDate).mpr
    ⟨0, by decide, by decide, fun j hj => absurd hj (by omega), by decide⟩

/-- C6 (counterexample to the claim as stated): constructing the
coordinator with `start_date` one day before the reference date completes
normally — no ConfigurationError (no error of any kind) is raised; the
guard in `_advance_to_start_date` simply skips the advancement, leaving
every employee at the reference-date position. -/
theorem construction_before_reference_counterexample :
    mkScheduleGenerator (referenceDate - 1) referenceEmployees =
      referenceEmployees := by decide

/-- C6 (amended): construction with `start_date` earlier than the reference
date does not fail: the advancement step is silently skipped and the
employee states are left exactly at their reference-date positions (the
system indeed cannot project backward, but it reports nothing — a roster
generated afterwards carries the earlier dates with reference-date
statuses). -/
theorem construction_before_reference (startDate : Nat)
    (emps : List (String × Employee)) (h : startDate < referenceDate) :
    mkScheduleGenerator startDate emps = emps := by
  unfold mkScheduleGenerator advanceToStartDate
  rw [if_neg (by omega)]

/-- C6 witness: constructing at day 0 (far before the reference date)
returns the reference states unchanged. -/
theorem construction_before_reference_witness :
    mkScheduleGenerator 0 referenceEmployees = referenceEmployees :=
  construction_before_reference 0 referenceEmployees (by decide)

/-- C7 (counterexample to the claim as stated): `generate_schedule(0)` —
`num_days < 1` — does not fail with InvalidArgument (or anything else): it
returns normally with empty schedules. -/
theorem generate_zero_days_counterexample :
    generateSchedule referenceEmployees referenceDate 0 =
      .ok ([], [("Ludy", []), ("Sanye", []), ("Clari", [])],
        referenceEmployees) := by decide

/-- C7 (amended): `generate_schedule` performs no validation of `num_days`:
for every `num_days < 1` the loop body never runs and the call returns
empty general and individual schedules with the employee states untouched
(it is the CLI wrapper `main.py`, not the core, that rejects non-positive
`--days`). -/
theorem generate_nonpositive_days (emps : List (String × Employee))
    (startDate : Nat) (numDays : Int) (h : numDays < 1) :
    generateSchedule emps startDate numDays =
      .ok ([], emps.map (fun p => (p.1, [])), emps) := by
  unfold generateSchedule
  rw [Int.toNat_of_nonpos (by omega)]
  rfl

/-- C7 witness: `generate_schedule(-3)` returns empty schedules. -/
theorem generate_nonpositive_days_witness :
    generateSchedule referenceEmployees referenceDate (-3) =
      .ok ([], referenceEmployees.map (fun p => (p.1, [])),
        referenceEmployees) :=
  generate_nonpositive_days referenceEmployees referenceDate (-3) (by decide)

/-- C9: on success the general roster has one record per requested day, its
`i`-th record carries date `start_date + i`, and every individual
per-employee sequence carries the same date at the same index. -/
theorem generate_schedule_date_alignment
    (emps : List (String × Employee)) (startDate : Nat) (numDays : Int)
    (gs : List GeneralRecord) (ind : List (String × List IndividualRecord))
    (fin : List (String × Employee))
    (h : generateSchedule emps startDate numDays = .ok (gs, ind, fin)) :
    gs.length = numDays.toNat ∧
    (∀ i (hi : i < gs.length), (gs.get ⟨i, hi⟩).fecha = startDate + i) ∧
    (∀ p ∈ ind, ∀ i (hi : i < p.2.length), (p.2.get ⟨i, hi⟩).date = startDate + i) :=
  generateScheduleAux_ok_dates numDays.toNat emps startDate gs ind fin h

/-- C9 witness: a successful 7-day run from the reference configuration
has exactly 7 general records. -/
theorem generate_schedule_date_alignment_witness :
    (generalOf (generateSchedule referenceEmployees referenceDate 7)).length =
      (7 : Int).toNat :=
  (generate_schedule_date_alignment referenceEmployees referenceDate 7
    (generalOf (generateSchedule referenceEmployees referenceDate 7))
    (individualOf (generateSchedule referenceEmployees referenceDate 7))
    (finalOf (generateSchedule referenceEmployees referenceDate 7)
      referenceEmployees)
    (by decide)).1

/-- C10: a successful `generate_schedule(n)` call mutates the coordinator —
the final employee states are the initial ones advanced exactly `n` days —
and consequently two successive `generate_schedule(1)` calls on the
reference coordinator return different general rosters: the second call's
records restart at `start_date` but carry the statuses of the next
rotation day. -/
theorem generate_schedule_mutates_coordinator
    (emps : List (String × Employee)) (startDate : Nat) (numDays : Int)
    (gs : List GeneralRecord) (ind : List (String × List IndividualRecord))
    (fin : List (String × Employee))
    (h : generateSchedule emps startDate numDays = .ok (gs, ind, fin)) :
    fin = (advanceAll)^[numDays.toNat] emps ∧
    ((generateSchedule referenceEmployees referenceDate 1).isOk = true ∧
      (generateSchedule (advanceAll referenceEmployees) referenceDate 1).isOk =
        true ∧
      generalOf (generateSchedule referenceEmployees referenceDate 1) ≠
        generalOf (generateSchedule (advanceAll referenceEmployees)
          referenceDate 1)) :=
  ⟨generateScheduleAux_ok_final numDays.toNat emps startDate gs ind fin h,
    by decide, by decide, by decide⟩

/-- C10 witness: after a successful 7-day run from the reference
configuration the employee states are the reference states advanced 7
days, and the two successive 1-day calls indeed differ. -/
theorem generate_schedule_mutates_coordinator_witness :
    finalOf (generateSchedule referenceEmployees referenceDate 7)
        referenceEmployees =
      (advanceAll)^[(7 : Int).toNat] referenceEmployees ∧
    ((generateSchedule referenceEmployees referenceDate 1).isOk = true ∧
      (generateSchedule (advanceAll referenceEmployees) referenceDate 1).isOk =
        true ∧
      generalOf (generateSchedule referenceEmployees referenceDate 1) ≠
        generalOf (generateSchedule (advanceAll referenceEmployees)
          referenceDate 1)) :=
  generate_schedule_mutates_coordinator referenceEmployees referenceDate 7
    (generalOf (generateSchedule referenceEmployees referenceDate 7))
    (individualOf (generateSchedule referenceEmployees referenceDate 7))
    (finalOf (generateSchedule referenceEmployees referenceDate 7)
      referenceEmployees)
    (by decide)

end ScheduleGenerator

end OrenesCalendar
